import Mathlib

/-!
Verification development for the `aiq` command-execution pipeline:
template rendering, parameter validation/coercion, provider registry,
history recording and the command runner, shallowly embedded from the
TypeScript sources.  Strings are modelled as lists of characters
(`Str := List Char`); JavaScript runtime values that flow through the
value maps are modelled by the inductive `Value` (with `Value.null` for
`null`; an absent key plays the role of `undefined`).
-/

namespace Aiq

abbrev Str := List Char

/-- A JavaScript value as it appears in the template/parameter value maps:
a string, a number (the development only needs integers), a boolean, or
`null`.  `undefined` is modelled by absence from the map. -/
inductive Value where
  | str (s : Str)
  | num (n : Int)
  | bool (b : Bool)
  | null
  deriving DecidableEq, Repr

abbrev ValueMap := List (Str × Value)

/-- First-match association-list lookup, modelling JavaScript object
property access (`m[k]`, `none` standing for `undefined`). -/
def alookup {α : Type} : List (Str × α) → Str → Option α
  | [], _ => none
  | (k', v) :: rest, k => if k' = k then some v else alookup rest k

/-- Models the JavaScript assignment `m[k] = v`: the new binding shadows
any previous binding of `k` under `alookup`. -/
def insertVal (m : ValueMap) (k : Str) (v : Value) : ValueMap := (k, v) :: m

/-- JavaScript truthiness of a value. -/
def truthy : Value → Bool
  | .str s => !s.isEmpty
  | .num n => n != 0
  | .bool b => b
  | .null => false

/-- JavaScript truthiness of a possibly-undefined value. -/
def truthyOpt : Option Value → Bool
  | none => false
  | some v => truthy v

def isWs (c : Char) : Bool :=
  c == ' ' || c == '\t' || c == '\n' || c == '\r'

/-- Models JavaScript `String.prototype.trim`: strips leading and
trailing whitespace. -/
def trimStr (s : Str) : Str :=
  ((s.dropWhile isWs).reverse.dropWhile isWs).reverse

def toLowerStr (s : Str) : Str := s.map Char.toLower

/-- Decimal rendering of an integer, as JavaScript `String(n)` renders
an integral number. -/
def intToStr (n : Int) : Str :=
  match n with
  | Int.ofNat m => Nat.toDigits 10 m
  | Int.negSucc m => '-' :: Nat.toDigits 10 (m + 1)

/-- Models the JavaScript `String(v)` conversion on defined values. -/
def jsToString : Value → Str
  | .str s => s
  | .num n => intToStr n
  | .bool b => if b then ("true").data else ("false").data
  | .null => ("null").data

def digitVal (c : Char) : Option Nat :=
  if '0' ≤ c ∧ c ≤ '9' then some (c.toNat - '0'.toNat) else none

def parseDigitsAux (acc : Nat) : Str → Option Nat
  | [] => some acc
  | c :: rest =>
    match digitVal c with
    | some d => parseDigitsAux (acc * 10 + d) rest
    | none => none

/-- Parse an optionally signed decimal integer literal (the whole string
must be consumed). -/
def parseIntLit (s : Str) : Option Int :=
  match s with
  | [] => none
  | '-' :: rest =>
    if rest = [] then none else (parseDigitsAux 0 rest).map (fun n => -(n : Int))
  | '+' :: rest =>
    if rest = [] then none else (parseDigitsAux 0 rest).map (fun n => (n : Int))
  | _ => (parseDigitsAux 0 s).map (fun n => (n : Int))

/-- Models the JavaScript `Number(v)` coercion used by the validator,
with `none` standing for `NaN`.  The string grammar is restricted to the
optionally signed decimal integer literals this development exercises;
as in JavaScript, a whitespace-only string coerces to `0`, `true` to
`1`, `false` and `null` to `0`. -/
def jsToNumber : Value → Option Int
  | .num n => some n
  | .bool b => some (if b then 1 else 0)
  | .null => some 0
  | .str s =>
    let t := trimStr s
    if t = [] then some 0 else parseIntLit t

/-- Models JavaScript `Array.prototype.join(sep)`. -/
def joinSep (sep : Str) : List Str → Str
  | [] => []
  | [x] => x
  | x :: rest => x ++ sep ++ joinSep sep rest

/-- Models JavaScript `String.prototype.includes`: `hasSubstr hay needle`
is true iff `needle` occurs contiguously in `hay`. -/
def hasSubstr (hay needle : Str) : Bool :=
  if needle.isPrefixOf hay then true
  else
    match hay with
    | [] => false
    | _ :: t => hasSubstr t needle

/-- Split a string at the first closing brace: `splitAtBrace l = some (k, r)`
iff `l` is `k`, then a closing brace, then `r`, with no closing brace inside `k`.  This is how the
regular expression `/{([^}]+)}/` delimits a placeholder body. -/
def splitAtBrace : Str → Option (Str × Str)
  | [] => none
  | c :: rest =>
    if c = '}' then some ([], rest)
    else (splitAtBrace rest).map (fun p => (c :: p.1, p.2))

theorem splitAtBrace_length_lt :
    ∀ (l k r : Str), splitAtBrace l = some (k, r) → r.length < l.length := by
  intro l
  induction l with
  | nil => intro k r h; simp [splitAtBrace] at h
  | cons c rest ih =>
    intro k r h
    by_cases hc : c = '}'
    · simp [splitAtBrace, hc] at h
      simp [← h.2]
    · cases hsp : splitAtBrace rest with
      | none => simp [splitAtBrace, hc, hsp] at h
      | some p =>
        obtain ⟨k', r'⟩ := p
        simp [splitAtBrace, hc, hsp] at h
        obtain ⟨hk, hr⟩ := h
        subst hr
        have := ih k' r' hsp
        simp
        omega

/-- A user-facing error (`UserError` in `types.ts`): a message plus an
optional actionable hint. -/
structure UserError where
  message : Str
  hint : Option Str
  deriving DecidableEq, Repr

/-- The declared type of a command parameter. -/
inductive PType where
  | string
  | number
  | boolean
  deriving DecidableEq, Repr

/-- `ParamDef` from `types.ts`.  `default`, `alias`, `description` and
`choices` are optional; an absent `required` behaves like `false`. -/
structure ParamDef where
  type : PType
  dflt : Option Value := none
  aliasName : Option Str := none
  required : Bool := false
  description : Option Str := none
  choices : Option (List Str) := none
  deriving DecidableEq, Repr

abbrev ParamMap := List (Str × ParamDef)

def inputKey : Str := ("input").data

def inputPlaceholder : Str := ("\x7binput\x7d").data

def noInputMsg : Str := ("No input provided").data

def requiredMissingMsg (key : Str) : Str :=
  ("Required parameter missing: ").data ++ key

/-- JavaScript `a || b` on an optional string: the fallback is used when
the string is absent or empty (falsy). -/
def orFalsy (o : Option Str) (fallback : Str) : Str :=
  match o with
  | some s => if s = [] then fallback else s
  | none => fallback

/-- `params?.[key]?.default` — the declared default of `key`, if any. -/
def paramDefault (params : ParamMap) (key : Str) : Option Value :=
  match alookup params key with
  | some d => d.dflt
  | none => none

/-- `params?.[key]?.required` under JavaScript truthiness. -/
def paramRequired (params : ParamMap) (key : Str) : Bool :=
  match alookup params key with
  | some d => d.required
  | none => false

/-- A defined, non-null value (the guard
`values[key] !== undefined && values[key] !== null`). -/
def definedNonNull : Option Value → Option Value
  | some Value.null => none
  | some v => some v
  | none => none

/-- The placeholder-replacement callback of `TemplateEngine.render`: given
a placeholder key, produce its substitution text or a `UserError`. -/
def resolveKey (values : ValueMap) (params : ParamMap) (key : Str) :
    Except UserError Str :=
  match definedNonNull (alookup values key) with
  | some v => Except.ok (jsToString v)
  | none =>
    match paramDefault params key with
    | some d => Except.ok (jsToString d)
    | none =>
      if key = inputKey then
        match alookup values key with
        | some v =>
          if truthy v then Except.ok (jsToString v)
          else Except.error ⟨noInputMsg, none⟩
        | none => Except.error ⟨noInputMsg, none⟩
      else if paramRequired params key then
        Except.error ⟨requiredMissingMsg key,
          some (("Use --").data ++ key ++ (" to provide a value").data)⟩
      else Except.ok []

/-- One pass of `template.replace(/\x7b([^\x7d]+)\x7d/g, cb)`: scan left to
right; a placeholder is an opening brace, one or more non-closing-brace
characters, and a closing brace; each placeholder body is passed to the
resolver and replaced by its result; everything else is copied verbatim.
Resolver output is not rescanned, and scanning resumes after the closing
brace, exactly as the global regex replace does. -/
def substitute (resolve : Str → Except UserError Str) : Str → Except UserError Str
  | [] => Except.ok []
  | c :: rest =>
    if c = '{' then
      match hsp : splitAtBrace rest with
      | some (key, rest') =>
        if key = [] then
          (substitute resolve rest).map (fun t => '{' :: t)
        else
          match resolve key with
          | Except.error e => Except.error e
          | Except.ok r =>
            match substitute resolve rest' with
            | Except.error e => Except.error e
            | Except.ok t => Except.ok (r ++ t)
      | none => (substitute resolve rest).map (fun t => '{' :: t)
    else (substitute resolve rest).map (fun t => c :: t)
termination_by l => l.length
decreasing_by
  · simp
  · have := splitAtBrace_length_lt rest key rest' hsp
    simp
    omega
  · simp
  · simp

/-- `TemplateEngine.render` from `template-engine.ts`: substitute every
placeholder; if the template had no literal occurrence of the input
placeholder and a truthy `input` value is present, append that input after
a blank line; finally trim the result. -/
def render (template : Str) (values : ValueMap) (params : ParamMap) :
    Except UserError Str :=
  match substitute (resolveKey values params) template with
  | Except.error e => Except.error e
  | Except.ok sub =>
    if !hasSubstr template inputPlaceholder && truthyOpt (alookup values inputKey) then
      Except.ok (trimStr (trimStr sub ++ ('\n' :: '\n' :: []) ++
        jsToString ((alookup values inputKey).getD Value.null)))
    else Except.ok (trimStr sub)

/-- The placeholder keys of a template in match order, with duplicates
(the successive matches of the global regex). -/
def extractKeys : Str → List Str
  | [] => []
  | c :: rest =>
    if c = '{' then
      match hsp : splitAtBrace rest with
      | some (key, rest') =>
        if key = [] then extractKeys rest else key :: extractKeys rest'
      | none => extractKeys rest
    else extractKeys rest
termination_by l => l.length
decreasing_by
  · simp
  · have := splitAtBrace_length_lt rest key rest' hsp
    simp
    omega
  · simp
  · simp

/-- Deduplication keeping first occurrences, as a JavaScript `Set`
preserves insertion order. -/
def dedupFirst : List Str → List Str
  | [] => []
  | k :: rest => k :: dedupFirst (rest.filter (fun x => x != k))
termination_by l => l.length
decreasing_by
  have := List.length_filter_le (fun x => x != k) rest
  simp
  omega

/-- `TemplateEngine.extractParams`: the distinct placeholder keys of a
template in first-occurrence order. -/
def extractParams (template : Str) : List Str :=
  dedupFirst (extractKeys template)

def numMismatchMsg (key : Str) : Str :=
  ("Parameter \x27").data ++ key ++ ("\x27 must be a number").data

def numMismatchHint (v : Value) : Str :=
  ("You provided: ").data ++ jsToString v

def invalidValueMsg (key : Str) (v : Value) : Str :=
  ("Invalid value for \x27").data ++ key ++ ("\x27: ").data ++ jsToString v

def choicesHint (cs : List Str) : Str :=
  ("Available choices: ").data ++ joinSep ((", ").data) cs

/-- The effective value of a parameter:
`values[paramName] ?? paramDef.default` (the nullish coalescing treats
both an absent key and an explicit `null` as missing). -/
def effValue (values : ValueMap) (key : Str) (d : ParamDef) : Option Value :=
  match alookup values key with
  | some v => if v = Value.null then d.dflt else some v
  | none => d.dflt

/-- The trailing `choices` check of the validation loop body.  As in the
source, it inspects `String(value)` for the ORIGINAL effective value `v`
(the local `value` is not reassigned by the coercions). -/
def checkChoices (values : ValueMap) (key : Str) (d : ParamDef) (v : Value) :
    ValueMap × Option UserError :=
  match d.choices with
  | some cs =>
    if cs.contains (jsToString v) then (values, none)
    else (values, some ⟨invalidValueMsg key v, some (choicesHint cs)⟩)
  | none => (values, none)

/-- The body of the `TemplateEngine.validateParams` loop for one template
parameter that has a definition: required check, numeric coercion (with
failure on `NaN`), boolean coercion of textual values, then the choices
check.  Returns the (possibly mutated) value map and an optional error. -/
def validateOne (values : ValueMap) (key : Str) (d : ParamDef) :
    ValueMap × Option UserError :=
  match effValue values key d with
  | none =>
    if d.required then
      (values, some ⟨requiredMissingMsg key,
        some (orFalsy d.description (("Provide --").data ++ key))⟩)
    else (values, none)
  | some v =>
    if d.type = PType.number then
      match jsToNumber v with
      | none => (values, some ⟨numMismatchMsg key, some (numMismatchHint v)⟩)
      | some n => checkChoices (insertVal values key (Value.num n)) key d v
    else if d.type = PType.boolean then
      match v with
      | Value.str s =>
        checkChoices (insertVal values key (Value.bool (toLowerStr s = ("true").data)))
          key d v
      | _ => checkChoices values key d v
    else checkChoices values key d v

/-- The fail-fast iteration of `validateParams` over the extracted
template parameter names: `input` is skipped, parameters with no
definition are skipped, and the first error aborts the loop. -/
def validateSteps (values : ValueMap) (params : ParamMap) :
    List Str → ValueMap × Option UserError
  | [] => (values, none)
  | key :: rest =>
    if key = inputKey then validateSteps values params rest
    else
      match alookup params key with
      | none => validateSteps values params rest
      | some d =>
        match validateOne values key d with
        | (values', some e) => (values', some e)
        | (values', none) => validateSteps values' params rest

/-- `TemplateEngine.validateParams` from `template-engine.ts`, with the
in-place mutation of the value map made explicit: the result is the final
value map paired with the error that aborted validation, if any. -/
def validateParamsRun (template : Str) (values : ValueMap) (params : ParamMap) :
    ValueMap × Option UserError :=
  validateSteps values params (extractParams template)

/-! ## Provider registry (`provider-discovery.ts`) -/

/-- A provider class is identified abstractly by a tag (class identity in
the source); constructing an instance is modelled as pairing the class
with the configuration handed to the constructor. -/
abbrev ProviderClass := Str

/-- The metadata attached to a provider class by the `@Provider`
decorator. -/
structure ProviderMetadata where
  providerName : Str
  displayName : Str
  defaultConfig : ValueMap
  deriving DecidableEq, Repr

abbrev Registry := List (Str × ProviderClass)

abbrev MetadataMap := List (ProviderClass × ProviderMetadata)

def nameKey : Str := ("name").data

/-- The `defaultConfig` recorded for a provider class by the decorator,
or the empty object when the class carries no metadata
(`metadata?.defaultConfig || \x7b\x7d`). -/
def defaultCfgOf (meta : MetadataMap) (cls : ProviderClass) : ValueMap :=
  match alookup meta cls with
  | some md => md.defaultConfig
  | none => []

/-- JavaScript `Map.prototype.set`: replaces an existing binding in place
or appends a new one, preserving insertion order of keys. -/
def setKey : Registry → Str → ProviderClass → Registry
  | [], k, v => [(k, v)]
  | (k', v') :: rest, k, v =>
    if k' = k then (k, v) :: rest else (k', v') :: setKey rest k v

def containsKey (m : Registry) (k : Str) : Bool := (alookup m k).isSome

namespace ProviderDiscovery

/-- `ProviderDiscovery.register`: stores the class under the lowercased
identifier.  The returned boolean records whether the collision warning
was logged; as in the source, the check `providers.has(name)` uses the
identifier as given, NOT lowercased. -/
def register (reg : Registry) (name : Str) (cls : ProviderClass) :
    Registry × Bool :=
  (setKey reg (toLowerStr name) cls, containsKey reg name)

def list (reg : Registry) : List Str := reg.map Prod.fst

def providerNotFoundMsg (id : Str) (ks : List Str) : Str :=
  ("Provider \"").data ++ id ++ ("\" not found. Available providers: ").data ++
    (if joinSep ((", ").data) ks = [] then ("none").data else joinSep ((", ").data) ks)

/-- `ProviderDiscovery.get`: look up the class under the lowercased
identifier; on failure raise the not-found message enumerating the
registered identifiers; on success build the constructor argument as the
spread `\x7b ...defaultConfig, ...config, name: id \x7d` (modelled as a
first-match list in reverse spread priority) and return the constructed
instance as class-tag-plus-configuration. -/
def get (reg : Registry) (meta : MetadataMap) (id : Str) (config : ValueMap) :
    Except Str (ProviderClass × ValueMap) :=
  match alookup reg (toLowerStr id) with
  | none => Except.error (providerNotFoundMsg id (list reg))
  | some cls =>
    Except.ok (cls, (nameKey, Value.str id) :: (config ++ defaultCfgOf meta cls))

/-- `ProviderDiscovery.has`: membership under the lowercased identifier. -/
def has (reg : Registry) (id : Str) : Bool := containsKey reg (toLowerStr id)

end ProviderDiscovery

/-! ## Gemini provider error handling (`gemini-provider.ts`) -/

/-- The status-specific default message/hint pairs of
`GeminiProvider.handleErrorResponse`; statuses outside the switch keep
the initial `HTTP <status> error` message and empty hint. -/
def statusDefaults (status : Nat) (model : Str) : Str × Str :=
  match status with
  | 400 => (("Invalid request to Gemini").data, ("Check your model name and parameters").data)
  | 401 => (("Invalid API key").data, ("Check your GEMINI_API_KEY environment variable").data)
  | 403 => (("Access forbidden").data, ("Ensure your API key has the necessary permissions").data)
  | 404 => (("Model not found").data,
      ("Model \x27").data ++ model ++ ("\x27 may not exist. Try \x27gemini-2.0-flash\x27").data)
  | 429 => (("Rate limit exceeded").data, ("Wait a moment and try again").data)
  | 500 => (("Gemini service error").data, ("The service may be temporarily down. Try again later").data)
  | 502 => (("Gemini service error").data, ("The service may be temporarily down. Try again later").data)
  | 503 => (("Gemini service error").data, ("The service may be temporarily down. Try again later").data)
  | _ => (("HTTP ").data ++ Nat.toDigits 10 status ++ (" error").data, [])

/-- `GeminiProvider.handleErrorResponse` for a non-2xx response: start
from the status-specific defaults; if the response body parses to a
structured error with a message, that message replaces the default (the
hint is kept); the resulting `UserError` is thrown. -/
def handleErrorResponse (status : Nat) (model : Str) (bodyErrorMessage : Option Str) :
    UserError :=
  ⟨(match bodyErrorMessage with
    | some m => m
    | none => (statusDefaults status model).1),
   some (statusDefaults status model).2⟩

/-! ## History (`history-manager.ts`) -/

structure HistoryConfig where
  enabled : Bool
  maxEntries : Nat
  deriving DecidableEq, Repr

structure HistoryEntry where
  id : Str
  timestamp : Int
  command : Str
  params : ValueMap
  prompt : Str
  response : Str
  duration : Int
  deriving DecidableEq, Repr

/-- An arbitrary JavaScript exception: either a `UserError` or some other
error (e.g. a file-system failure), identified by a tag. -/
inductive JsError where
  | user (e : UserError)
  | generic (tag : Str)
  deriving DecidableEq, Repr

/-- `HistoryManager.add`, with the file system made explicit: `loadResult`
is what reading the history file produced and `saveResult` is the outcome
of writing it back.  Load failures are logged and swallowed (an empty log
is used); the new entry is prepended and the log truncated to
`maxEntries`; a save failure propagates.  Returns the log that was
persisted (`none` when history is disabled and nothing was written). -/
def histAdd (cfg : HistoryConfig) (loadResult : Except JsError (List HistoryEntry))
    (saveResult : Except JsError Unit) (entry : HistoryEntry) :
    Except JsError (Option (List HistoryEntry)) :=
  if !cfg.enabled then Except.ok none
  else
    let history :=
      match loadResult with
      | Except.ok l => l
      | Except.error _ => []
    let history := entry :: history
    let history :=
      if history.length > cfg.maxEntries then history.take cfg.maxEntries else history
    match saveResult with
    | Except.ok _ => Except.ok (some history)
    | Except.error e => Except.error e

/-! ## Command runner (`command-runner.ts`) -/

structure CommandDef where
  name : Str
  description : Option Str := none
  prompt : Str
  params : ParamMap := []
  deriving DecidableEq, Repr

structure Config where
  commands : List CommandDef
  history : Option HistoryConfig := none
  deriving DecidableEq, Repr

structure RunOptions where
  dryRun : Bool := false
  params : ValueMap := []
  input : Option Str := none
  deriving DecidableEq, Repr

/-- The ambient effects and nondeterminism of one `run` invocation:
the stdin stream (`none` when stdin is an interactive terminal), the
provider's response for each possible prompt, the history file reads and
writes, and the generated id/timestamps. -/
structure World where
  stdin : Option Str
  providerResult : Str → Except JsError Str
  histLoad : Except JsError (List HistoryEntry)
  histSave : Except JsError Unit
  newId : Str
  now : Int
  duration : Int

/-- The observable side effects of one `run` invocation: the prompts sent
to the provider and the history logs persisted. -/
structure RunEffects where
  providerPrompts : List Str := []
  historyWrites : List (List HistoryEntry) := []
  deriving DecidableEq, Repr

structure RunResult where
  result : Except JsError Str
  effects : RunEffects

/-- `CommandRunner.getStdinInput`: the fully drained, trimmed piped input,
or the empty string when stdin is a terminal. -/
def getStdinInput (stdin : Option Str) : Str :=
  match stdin with
  | some s => trimStr s
  | none => []

/-- `options.input || (await this.getStdinInput())` — an absent or empty
explicit input falls back to stdin. -/
def effectiveInput (o : RunOptions) (stdin : Option Str) : Str :=
  match o.input with
  | some s => if s = [] then getStdinInput stdin else s
  | none => getStdinInput stdin

/-- The value map `\x7b ...options.params, input \x7d` handed to validation
and rendering. -/
def runValues (o : RunOptions) (stdin : Option Str) : ValueMap :=
  (inputKey, Value.str (effectiveInput o stdin)) :: o.params

def findCommand (cfg : Config) (name : Str) : Option CommandDef :=
  cfg.commands.find? (fun c => c.name == name)

def historyEnabled (cfg : Config) : Bool :=
  match cfg.history with
  | some h => h.enabled
  | none => false

def commandNotFoundErr (name : Str) : UserError :=
  ⟨("Command \x27").data ++ name ++ ("\x27 not found").data,
    some ("Run \"aiq list\" to see available commands").data⟩

/-- `CommandRunner.run`: resolve the command, acquire input, validate
(mutating the value map), render, short-circuit on dry run, otherwise send
the prompt to the provider, then (when history is enabled) record the
exchange; a failure inside the provider/history block is re-thrown by the
catch after stopping the spinner. -/
def run (cfg : Config) (w : World) (commandName : Str) (o : RunOptions) : RunResult :=
  match findCommand cfg commandName with
  | none => ⟨Except.error (JsError.user (commandNotFoundErr commandName)), {}⟩
  | some cmd =>
    match validateParamsRun cmd.prompt (runValues o w.stdin) cmd.params with
    | (_, some e) => ⟨Except.error (JsError.user e), {}⟩
    | (values', none) =>
      match render cmd.prompt values' cmd.params with
      | Except.error e => ⟨Except.error (JsError.user e), {}⟩
      | Except.ok prompt =>
        if o.dryRun then ⟨Except.ok [], {}⟩
        else
          match w.providerResult prompt with
          | Except.error e => ⟨Except.error e, { providerPrompts := [prompt] }⟩
          | Except.ok response =>
            if historyEnabled cfg then
              match histAdd (cfg.history.getD ⟨false, 0⟩) w.histLoad w.histSave
                  { id := w.newId, timestamp := w.now, command := commandName,
                    params := o.params, prompt := prompt, response := response,
                    duration := w.duration } with
              | Except.error e => ⟨Except.error e, { providerPrompts := [prompt] }⟩
              | Except.ok none => ⟨Except.ok response, { providerPrompts := [prompt] }⟩
              | Except.ok (some saved) =>
                ⟨Except.ok response,
                  { providerPrompts := [prompt], historyWrites := [saved] }⟩
            else ⟨Except.ok response, { providerPrompts := [prompt] }⟩

/-! ## Helper lemmas -/

theorem alookup_append {α : Type} (a b : List (Str × α)) (k : Str) :
    alookup (a ++ b) k =
      (match alookup a k with
       | some v => some v
       | none => alookup b k) := by
  induction a with
  | nil => simp [alookup]
  | cons p rest ih =>
    obtain ⟨k', v⟩ := p
    by_cases h : k' = k <;> simp [alookup, h, ih]

theorem alookup_insert_self (m : ValueMap) (k : Str) (v : Value) :
    alookup (insertVal m k v) k = some v := by
  simp [insertVal, alookup]

theorem alookup_insert_other (m : ValueMap) (k j : Str) (v : Value) (h : k ≠ j) :
    alookup (insertVal m k v) j = alookup m j := by
  simp [insertVal, alookup, h]

theorem alookup_setKey_self (m : Registry) (k : Str) (v : ProviderClass) :
    alookup (setKey m k v) k = some v := by
  induction m with
  | nil => simp [setKey, alookup]
  | cons p rest ih =>
    obtain ⟨k', v'⟩ := p
    by_cases h : k' = k <;> simp [setKey, alookup, h, ih]

theorem dropWhile_cons_false {p : Char → Bool} {c : Char} {l : Str} (h : p c = false) :
    List.dropWhile p (c :: l) = c :: l := by
  simp [List.dropWhile, h]

theorem length_dropWhile_le {p : Char → Bool} :
    ∀ l : Str, (List.dropWhile p l).length ≤ l.length := by
  intro l
  induction l with
  | nil => simp
  | cons c rest ih =>
    cases hc : p c with
    | true =>
      simp only [List.dropWhile, hc]
      exact Nat.le_succ_of_le ih
    | false => simp [List.dropWhile, hc]

theorem dropWhile_self_head {p : Char → Bool} (l : Str) (h : List.dropWhile p l = l)
    (hne : l ≠ []) : ∃ c r, l = c :: r ∧ p c = false := by
  cases l with
  | nil => exact absurd rfl hne
  | cons c rest =>
    cases hc : p c with
    | false => exact ⟨c, rest, rfl, hc⟩
    | true =>
      exfalso
      have h1 : List.dropWhile p (c :: rest) = List.dropWhile p rest := by
        simp [List.dropWhile, hc]
      rw [h1] at h
      have hle := length_dropWhile_le (p := p) rest
      have h2 := congrArg List.length h
      simp at h2
      omega

theorem dropWhile_suffix_ex {p : Char → Bool} :
    ∀ l : Str, ∃ t, t ++ List.dropWhile p l = l := by
  intro l
  induction l with
  | nil => exact ⟨[], rfl⟩
  | cons c rest ih =>
    cases hc : p c with
    | true =>
      obtain ⟨t, ht⟩ := ih
      exact ⟨c :: t, by simp [List.dropWhile, hc, ht]⟩
    | false => exact ⟨[], by simp [List.dropWhile, hc]⟩

theorem dropWhile_dropWhile {p : Char → Bool} (l : Str) :
    List.dropWhile p (List.dropWhile p l) = List.dropWhile p l := by
  induction l with
  | nil => rfl
  | cons c rest ih =>
    cases hc : p c with
    | true => simp only [List.dropWhile, hc]; exact ih
    | false => simp [List.dropWhile, hc]

theorem trimStr_front (x : Str) : List.dropWhile isWs (trimStr x) = trimStr x := by
  show List.dropWhile isWs
      ((List.dropWhile isWs (List.dropWhile isWs x).reverse).reverse) = _
  obtain ⟨t, ht⟩ := dropWhile_suffix_ex (p := isWs) (List.dropWhile isWs x).reverse
  cases hY : (List.dropWhile isWs (List.dropWhile isWs x).reverse).reverse with
  | nil => simp [trimStr, hY]
  | cons c r =>
    have hx : List.dropWhile isWs x = c :: (r ++ t.reverse) := by
      have := congrArg List.reverse ht
      simp at this
      rw [hY] at this
      simpa using this.symm
    have hdd := dropWhile_dropWhile (p := isWs) x
    rw [hx] at hdd
    obtain ⟨c', r', hcr, hc⟩ := dropWhile_self_head _ hdd (by simp)
    have hcc : c = c' := by
      have := hcr
      simp at this
      exact this.1
    rw [trimStr, hY]
    exact dropWhile_cons_false (hcc ▸ hc)

theorem trimStr_back (x : Str) :
    List.dropWhile isWs (trimStr x).reverse = (trimStr x).reverse := by
  have h : (trimStr x).reverse
      = List.dropWhile isWs (List.dropWhile isWs x).reverse := by
    simp [trimStr]
  rw [h]
  exact dropWhile_dropWhile _

theorem trimStr_idem (x : Str) : trimStr (trimStr x) = trimStr x := by
  have h1 := trimStr_front x
  have h2 := trimStr_back x
  show ((List.dropWhile isWs (trimStr x)).reverse.dropWhile isWs).reverse = trimStr x
  rw [h1, h2, List.reverse_reverse]

theorem trimmed_front_of_eq {l : Str} (h : trimStr l = l) :
    List.dropWhile isWs l = l := by
  have := trimStr_front l
  rwa [h] at this

theorem trimmed_back_of_eq {l : Str} (h : trimStr l = l) :
    List.dropWhile isWs l.reverse = l.reverse := by
  have := trimStr_back l
  rwa [h] at this

theorem trimStr_append_sep (a m b : Str)
    (ha : List.dropWhile isWs a = a) (ha' : a ≠ [])
    (hb : List.dropWhile isWs b.reverse = b.reverse) (hb' : b ≠ []) :
    trimStr (a ++ m ++ b) = a ++ m ++ b := by
  obtain ⟨c, r, hcr, hc⟩ := dropWhile_self_head a ha ha'
  have hbrev : b.reverse ≠ [] := by simp [hb']
  obtain ⟨c', r', hcr', hc'⟩ := dropWhile_self_head b.reverse hb hbrev
  show ((List.dropWhile isWs (a ++ m ++ b)).reverse.dropWhile isWs).reverse = _
  have h1 : List.dropWhile isWs (a ++ m ++ b) = a ++ m ++ b := by
    rw [hcr, List.cons_append, List.cons_append]
    exact dropWhile_cons_false hc
  rw [h1]
  have h2 : (a ++ m ++ b).reverse = b.reverse ++ (m.reverse ++ a.reverse) := by
    simp
  rw [h2]
  have h3 : List.dropWhile isWs (b.reverse ++ (m.reverse ++ a.reverse))
      = b.reverse ++ (m.reverse ++ a.reverse) := by
    rw [hcr', List.cons_append]
    exact dropWhile_cons_false hc'
  rw [h3, ← h2, List.reverse_reverse]

theorem checkChoices_fst (values : ValueMap) (k : Str) (d : ParamDef) (v : Value) :
    (checkChoices values k d v).1 = values := by
  unfold checkChoices
  split <;> first | rfl | (split <;> rfl)

theorem validateOne_shape (values : ValueMap) (k : Str) (d : ParamDef) :
    (validateOne values k d).1 = values ∨
      ∃ v, (validateOne values k d).1 = insertVal values k v := by
  unfold validateOne
  cases effValue values k d with
  | none => by_cases h : d.required <;> simp [h]
  | some v =>
    by_cases h1 : d.type = PType.number
    · simp only [h1, if_true]
      cases jsToNumber v with
      | none => left; rfl
      | some n => right; exact ⟨Value.num n, checkChoices_fst _ _ _ _⟩
    · by_cases h2 : d.type = PType.boolean
      · simp only [h1, h2, if_false, if_true]
        cases v with
        | str s => right; exact ⟨_, checkChoices_fst _ _ _ _⟩
        | num n => left; exact checkChoices_fst _ _ _ _
        | bool b => left; exact checkChoices_fst _ _ _ _
        | null => left; exact checkChoices_fst _ _ _ _
      · simp only [h1, h2, if_false]
        left; exact checkChoices_fst _ _ _ _

theorem validateOne_fst_of_not_coercible (values : ValueMap) (k : Str) (d : ParamDef)
    (h1 : d.type ≠ PType.number) (h2 : d.type ≠ PType.boolean) :
    (validateOne values k d).1 = values := by
  unfold validateOne
  cases effValue values k d with
  | none => by_cases h : d.required <;> simp [h]
  | some v => simp only [h1, h2, if_false]; exact checkChoices_fst _ _ _ _

theorem validateOne_lookup_other (values : ValueMap) (k : Str) (d : ParamDef) (j : Str)
    (h : k ≠ j) :
    alookup (validateOne values k d).1 j = alookup values j := by
  rcases validateOne_shape values k d with h1 | ⟨v, h1⟩ <;> rw [h1]
  exact alookup_insert_other _ _ _ _ h

theorem validateSteps_lookup (params : ParamMap) :
    ∀ (keys : List Str) (values : ValueMap) (j : Str),
      (∀ d, j ∈ keys → alookup params j = some d →
        d.type ≠ PType.number ∧ d.type ≠ PType.boolean) →
      alookup (validateSteps values params keys).1 j = alookup values j := by
  intro keys
  induction keys with
  | nil => intro values j _; rfl
  | cons key rest ih =>
    intro values j hj
    have hstep : ∀ (d : ParamDef), alookup params key = some d →
        alookup (validateOne values key d).1 j = alookup values j := by
      intro d hpd
      by_cases hkj : key = j
      · subst hkj
        have hnc := hj d (List.mem_cons_self _ _) hpd
        rw [validateOne_fst_of_not_coercible values key d hnc.1 hnc.2]
      · exact validateOne_lookup_other values key d j hkj
    by_cases hki : key = inputKey
    · simp only [validateSteps, hki, if_true]
      exact ih values j (fun d hm hl => hj d (List.mem_cons_of_mem _ hm) hl)
    · cases hpd : alookup params key with
      | none =>
        simp only [validateSteps, hki, if_false, hpd]
        exact ih values j (fun d hm hl => hj d (List.mem_cons_of_mem _ hm) hl)
      | some d =>
        cases hvo : validateOne values key d with
        | mk values' err =>
          have hv' : alookup values' j = alookup values j := by
            have := hstep d hpd
            rw [hvo] at this
            exact this
          cases err with
          | some e =>
            simp only [validateSteps, hki, if_false, hpd, hvo]
            exact hv'
          | none =>
            simp only [validateSteps, hki, if_false, hpd, hvo]
            rw [ih values' j (fun d hm hl => hj d (List.mem_cons_of_mem _ hm) hl), hv']

theorem substitute_error_aux (resolve : Str → Except UserError Str) :
    ∀ (n : Nat) (l : Str), l.length ≤ n → ∀ (e : UserError),
      substitute resolve l = Except.error e → ∃ k, resolve k = Except.error e := by
  intro n
  induction n with
  | zero =>
    intro l hl e h
    cases l with
    | nil => rw [substitute] at h; simp at h
    | cons c r => simp at hl
  | succ n ih =>
    intro l hl e h
    cases l with
    | nil => rw [substitute] at h; simp at h
    | cons c rest =>
      have hlen : rest.length ≤ n := by simp at hl; omega
      rw [substitute] at h
      by_cases hc : c = '{'
      · simp only [hc, eq_self_iff_true, if_true] at h
        split at h
        · rename_i key rest' heq
          by_cases hke : key = []
          · subst hke
            simp only [eq_self_iff_true, if_true] at h
            cases hs : substitute resolve rest with
            | error e' =>
              rw [hs] at h
              simp [Except.map] at h
              subst h
              exact ih rest hlen e' hs
            | ok t => rw [hs] at h; simp [Except.map] at h
          · simp only [hke, if_false] at h
            cases hr : resolve key with
            | error e0 =>
              rw [hr] at h
              simp at h
              subst h
              exact ⟨key, hr⟩
            | ok r =>
              rw [hr] at h
              cases hs : substitute resolve rest' with
              | error e0 =>
                rw [hs] at h
                simp at h
                subst h
                have hl' := splitAtBrace_length_lt rest key rest' heq
                exact ih rest' (by omega) e0 hs
              | ok t => rw [hs] at h; simp at h
        · cases hs : substitute resolve rest with
          | error e' =>
            rw [hs] at h
            simp [Except.map] at h
            subst h
            exact ih rest hlen e' hs
          | ok t => rw [hs] at h; simp [Except.map] at h
      · simp only [hc, if_false] at h
        cases hs : substitute resolve rest with
        | error e' =>
          rw [hs] at h
          simp [Except.map] at h
          subst h
          exact ih rest hlen e' hs
        | ok t => rw [hs] at h; simp [Except.map] at h

theorem substitute_error (resolve : Str → Except UserError Str) (l : Str)
    (e : UserError) (h : substitute resolve l = Except.error e) :
    ∃ k, resolve k = Except.error e :=
  substitute_error_aux resolve l.length l (le_refl _) e h

theorem render_error (t : Str) (values : ValueMap) (params : ParamMap) (e : UserError)
    (h : render t values params = Except.error e) :
    substitute (resolveKey values params) t = Except.error e := by
  unfold render at h
  cases hs : substitute (resolveKey values params) t with
  | error e' =>
    rw [hs] at h
    simp at h
    rw [h]
  | ok sub =>
    exfalso
    rw [hs] at h
    simp only [] at h
    cases hcnd : (!hasSubstr t inputPlaceholder && truthyOpt (alookup values inputKey)) with
    | true => rw [hcnd] at h; simp at h
    | false => rw [hcnd] at h; simp at h

theorem definedNonNull_some_eq_none {v : Value} (h : definedNonNull (some v) = none) :
    v = Value.null := by
  cases v with
  | null => rfl
  | str s => simp [definedNonNull] at h
  | num n => simp [definedNonNull] at h
  | bool b => simp [definedNonNull] at h

theorem requiredMissingMsg_ne_noInput (k : Str) : requiredMissingMsg k ≠ noInputMsg := by
  intro h
  have h1 : (requiredMissingMsg k).head? = some 'R' := rfl
  have h2 : (noInputMsg).head? = some 'N' := rfl
  rw [h, h2] at h1
  exact absurd h1 (by decide)

theorem resolveKey_noInput (values : ValueMap) (params : ParamMap) (k : Str)
    (e : UserError) (h : resolveKey values params k = Except.error e)
    (hm : e.message = noInputMsg) :
    alookup values inputKey = none ∨ alookup values inputKey = some Value.null := by
  unfold resolveKey at h
  cases hd : definedNonNull (alookup values k) with
  | some v => rw [hd] at h; simp at h
  | none =>
    rw [hd] at h
    cases hpd : paramDefault params k with
    | some d => rw [hpd] at h; simp at h
    | none =>
      rw [hpd] at h
      by_cases hk : k = inputKey
      · rw [hk] at hd
        cases hl : alookup values inputKey with
        | none => exact Or.inl rfl
        | some v =>
          rw [hl] at hd
          exact Or.inr (congrArg some (definedNonNull_some_eq_none hd))
      · simp only [hk, if_false] at h
        by_cases hr : paramRequired params k
        · simp only [hr, if_true] at h
          have : e = ⟨requiredMissingMsg k,
              some (("Use --").data ++ k ++ (" to provide a value").data)⟩ := by
            simp [hr] at h
            exact h.symm
          rw [this] at hm
          exact absurd hm (requiredMissingMsg_ne_noInput k)
        · simp [hr] at h

theorem render_eq (t : Str) (values : ValueMap) (params : ParamMap) (sub : Str)
    (hsub : substitute (resolveKey values params) t = Except.ok sub) :
    render t values params =
      (if (!hasSubstr t inputPlaceholder && truthyOpt (alookup values inputKey)) = true
       then Except.ok (trimStr (trimStr sub ++ ('\n' :: '\n' :: []) ++
              jsToString ((alookup values inputKey).getD Value.null)))
       else Except.ok (trimStr sub)) := by
  unfold render
  rw [hsub]

theorem run_exec (cfg : Config) (w : World) (commandName : Str) (o : RunOptions)
    (cmd : CommandDef) (values' : ValueMap) (prompt : Str)
    (hf : findCommand cfg commandName = some cmd)
    (hv : validateParamsRun cmd.prompt (runValues o w.stdin) cmd.params = (values', none))
    (hr : render cmd.prompt values' cmd.params = Except.ok prompt)
    (hdry : o.dryRun = false) :
    run cfg w commandName o =
      (match w.providerResult prompt with
       | Except.error e => ⟨Except.error e, { providerPrompts := [prompt] }⟩
       | Except.ok response =>
         if historyEnabled cfg then
           match histAdd (cfg.history.getD ⟨false, 0⟩) w.histLoad w.histSave
               { id := w.newId, timestamp := w.now, command := commandName,
                 params := o.params, prompt := prompt, response := response,
                 duration := w.duration } with
           | Except.error e => ⟨Except.error e, { providerPrompts := [prompt] }⟩
           | Except.ok none => ⟨Except.ok response, { providerPrompts := [prompt] }⟩
           | Except.ok (some saved) =>
             ⟨Except.ok response, { providerPrompts := [prompt], historyWrites := [saved] }⟩
         else ⟨Except.ok response, { providerPrompts := [prompt] }⟩) := by
  unfold run
  simp only [hf, hv, hr, hdry, Bool.false_eq_true, if_false]

theorem histAdd_error_of_error (cfg : HistoryConfig)
    (load : Except JsError (List HistoryEntry)) (save : Except JsError Unit)
    (e : HistoryEntry) (err : JsError)
    (h : histAdd cfg load save e = Except.error err) :
    save = Except.error err := by
  unfold histAdd at h
  cases hen : cfg.enabled with
  | false => rw [hen] at h; simp at h
  | true =>
    rw [hen] at h
    simp only [Bool.not_true, Bool.false_eq_true, if_false] at h
    cases save with
    | ok u => simp at h
    | error e' => simp at h; rw [h]

theorem histAdd_of_save_ok (cfg : HistoryConfig)
    (load : Except JsError (List HistoryEntry)) (e : HistoryEntry) :
    ∃ x, histAdd cfg load (Except.ok ()) e = Except.ok x := by
  unfold histAdd
  cases hen : cfg.enabled with
  | false => exact ⟨none, rfl⟩
  | true => simp

theorem historyEnabled_getD (cfg : Config) (h : historyEnabled cfg = true) :
    (cfg.history.getD ⟨false, 0⟩).enabled = true := by
  unfold historyEnabled at h
  cases hh : cfg.history with
  | none => rw [hh] at h; simp at h
  | some hc => rw [hh] at h; simpa using h

theorem hasSubstr_nil (hay : Str) : hasSubstr hay [] = true := by
  cases hay <;> simp [hasSubstr, List.isPrefixOf]

theorem isPrefixOf_append_self (k b : Str) : k.isPrefixOf (k ++ b) = true := by
  induction k with
  | nil => simp [List.isPrefixOf]
  | cons c k' ih => simp [List.isPrefixOf, ih]

theorem hasSubstr_self_append (k b : Str) : hasSubstr (k ++ b) k = true := by
  cases k with
  | nil => exact hasSubstr_nil _
  | cons c k' =>
    unfold hasSubstr
    rw [isPrefixOf_append_self]
    simp

theorem hasSubstr_append_left (x y k : Str) (h : hasSubstr y k = true) :
    hasSubstr (x ++ y) k = true := by
  induction x with
  | nil => simpa using h
  | cons c x' ih =>
    unfold hasSubstr
    rw [List.cons_append]
    cases hp : k.isPrefixOf (c :: (x' ++ y)) with
    | true => simp
    | false => exact ih

theorem joinSep_mem_split (sep : Str) :
    ∀ (ks : List Str) (k : Str), k ∈ ks →
      ∃ a b, joinSep sep ks = a ++ (k ++ b) := by
  intro ks
  induction ks with
  | nil => intro k hk; simp at hk
  | cons x rest ih =>
    intro k hk
    cases rest with
    | nil =>
      have hkx : k = x := by simpa using hk
      subst hkx
      exact ⟨[], [], by simp [joinSep]⟩
    | cons y rest' =>
      rcases List.mem_cons.mp hk with hkx | hmem
      · subst hkx
        exact ⟨[], sep ++ joinSep sep (y :: rest'), by simp [joinSep]⟩
      · obtain ⟨a, b, hab⟩ := ih k hmem
        exact ⟨x ++ sep ++ a, b, by simp [joinSep, hab, List.append_assoc]⟩

/-! ## Claims -/

/-- Claim C1: for every template without the literal input placeholder and
every value map supplying a non-empty input string, `render` appends that
input to the end of the substituted text separated by a blank line (two
newlines), the whole then being trimmed as the render contract specifies;
when the input carries no edge whitespace and the substituted text does
not trim to nothing, the input appears verbatim at the end after the
blank line.  For every template containing the input placeholder no extra
appending occurs (the input appears only where the placeholder resolves,
with no duplication). -/
theorem C1_input_appending (t : Str) (values : ValueMap) (params : ParamMap)
    (s sub : Str)
    (hin : alookup values inputKey = some (Value.str s))
    (hs : s ≠ [])
    (hsub : substitute (resolveKey values params) t = Except.ok sub) :
    (hasSubstr t inputPlaceholder = false →
        render t values params =
          Except.ok (trimStr (trimStr sub ++ ('\n' :: '\n' :: []) ++ s))) ∧
    (hasSubstr t inputPlaceholder = true →
        render t values params = Except.ok (trimStr sub)) ∧
    (hasSubstr t inputPlaceholder = false → trimStr s = s → trimStr sub ≠ [] →
        render t values params =
          Except.ok (trimStr sub ++ ('\n' :: '\n' :: []) ++ s)) := by
  have htr : truthyOpt (alookup values inputKey) = true := by
    rw [hin]
    cases s with
    | nil => exact absurd rfl hs
    | cons c s' => rfl
  have hc1 : hasSubstr t inputPlaceholder = false →
      render t values params =
        Except.ok (trimStr (trimStr sub ++ ('\n' :: '\n' :: []) ++ s)) := by
    intro hph
    rw [render_eq t values params sub hsub, hph, htr, hin]
    simp [jsToString]
  refine ⟨hc1, ?_, ?_⟩
  · intro hph
    rw [render_eq t values params sub hsub, hph]
    simp
  · intro hph htrs htsub
    rw [hc1 hph]
    rw [trimStr_append_sep (trimStr sub) ('\n' :: '\n' :: []) s
      (trimStr_front sub) htsub (trimmed_back_of_eq htrs) hs]

/-- Witness for C1: a concrete template with no input placeholder and the
input `hello` — the rendered text is the template, a blank line, then
the input. -/
theorem C1_input_appending_witness :
    render (("Improve this text").data)
        [(inputKey, Value.str (("hello").data))] [] =
      Except.ok ((("Improve this text").data) ++ ('\n' :: '\n' :: []) ++ (("hello").data)) := by
  have h := C1_input_appending (("Improve this text").data)
      [(inputKey, Value.str (("hello").data))] []
      (("hello").data) (("Improve this text").data)
      rfl (by decide)
      (by simp [substitute, splitAtBrace, resolveKey, alookup, definedNonNull,
        paramDefault, jsToString, truthy, inputKey, Except.map])
  rw [h.2.2 (by decide) (by decide) (by decide)]
  have ht : trimStr (("Improve this text").data) = ("Improve this text").data := by decide
  rw [ht]

/-- Claim C2: with `dryRun` set, `run` stops after validating and
rendering: it never calls the provider, never appends a history entry,
and any successful result is the empty string (only the rendered text is
surfaced, by printing it). -/
theorem C2_dry_run (cfg : Config) (w : World) (commandName : Str) (o : RunOptions)
    (hdry : o.dryRun = true) :
    (run cfg w commandName o).effects = {} ∧
      ∀ s, (run cfg w commandName o).result = Except.ok s → s = [] := by
  unfold run
  split
  · exact ⟨rfl, by intro s h; simp at h⟩
  · split
    · exact ⟨rfl, by intro s h; simp at h⟩
    · split
      · exact ⟨rfl, by intro s h; simp at h⟩
      · simp only [hdry]
        refine ⟨rfl, ?_⟩
        intro s h
        simp at h
        exact h

/-- Witness for C2: a concrete dry run returns the empty string and
produces no provider call and no history write. -/
theorem C2_dry_run_witness :
    (run { commands := [{ name := (("echo").data), prompt := (("\x7binput\x7d").data) }],
           history := some { enabled := true, maxEntries := 5 } }
         { stdin := none, providerResult := fun _ => Except.ok (("resp").data),
           histLoad := Except.ok [], histSave := Except.ok (), newId := (("i1").data),
           now := 0, duration := 0 }
         (("echo").data)
         { dryRun := true, params := [], input := some (("hi").data) }).effects = {} :=
  (C2_dry_run _ _ _ _ rfl).1

/-- Claim C3 (amended): a failed `validateParams` call may leave the
numeric/boolean coercions it applied to parameters processed before the
failure point; every key that is not a template parameter declared with a
`number` or `boolean` type is left unchanged, and a run whose validation
fails performs no provider call and writes no history. -/
theorem C3_failed_validation :
    (∀ (t : Str) (values : ValueMap) (params : ParamMap) (j : Str),
        (validateParamsRun t values params).2.isSome = true →
        (∀ d, j ∈ extractParams t → alookup params j = some d →
          d.type ≠ PType.number ∧ d.type ≠ PType.boolean) →
        alookup (validateParamsRun t values params).1 j = alookup values j) ∧
    (∀ (cfg : Config) (w : World) (commandName : Str) (o : RunOptions) (cmd : CommandDef),
        findCommand cfg commandName = some cmd →
        (validateParamsRun cmd.prompt (runValues o w.stdin) cmd.params).2.isSome = true →
        (run cfg w commandName o).effects = {}) := by
  constructor
  · intro t values params j _ hnc
    exact validateSteps_lookup params (extractParams t) values j hnc
  · intro cfg w commandName o cmd hf hv
    unfold run
    split
    · rfl
    · rename_i cmd' heq1
      split
      · rfl
      · rename_i values' heq2
        exfalso
        rw [hf] at heq1
        injection heq1 with hcc
        rw [← hcc] at heq2
        rw [heq2] at hv
        simp at hv

/-- Counterexample to Claim C3 as stated: a `number`-typed parameter with
an out-of-choices value gets its entry coerced to the parsed number
before the choices check fails, so the failed call leaves the value map
changed. -/
theorem C3_counterexample :
    (validateParamsRun ('{' :: 'a' :: '}' :: [])
        [(('a' :: []), Value.str ('2' :: []))]
        [(('a' :: []), { type := PType.number, choices := some [('1' :: [])] })]).2.isSome
      = true ∧
    alookup (validateParamsRun ('{' :: 'a' :: '}' :: [])
        [(('a' :: []), Value.str ('2' :: []))]
        [(('a' :: []), { type := PType.number, choices := some [('1' :: [])] })]).1
        ('a' :: [])
      ≠ alookup [(('a' :: []), Value.str ('2' :: []))] ('a' :: []) := by
  have hex : extractParams ('{' :: 'a' :: '}' :: []) = [('a' :: [])] := by
    simp [extractParams, extractKeys, splitAtBrace, dedupFirst]
  constructor
  · unfold validateParamsRun
    rw [hex]
    decide
  · unfold validateParamsRun
    rw [hex]
    decide

/-- Witness for C3 (amended): a failing validation leaves unrelated keys
unchanged, and the corresponding run performs no provider call. -/
theorem C3_failed_validation_witness :
    alookup (validateParamsRun ('{' :: 'a' :: '}' :: [])
        [] [(('a' :: []), { type := PType.string, required := true })]).1 ('b' :: [])
      = alookup ([] : ValueMap) ('b' :: []) ∧
    (run { commands := [{ name := ('c' :: []),
                          prompt := ('{' :: 'a' :: '}' :: []),
                          params := [(('a' :: []), { type := PType.string, required := true })] }] }
         { stdin := none, providerResult := fun _ => Except.ok [], histLoad := Except.ok [],
           histSave := Except.ok (), newId := [], now := 0, duration := 0 }
         ('c' :: []) { dryRun := false }).effects = {} := by
  have hex : extractParams ('{' :: 'a' :: '}' :: []) = [('a' :: [])] := by
    simp [extractParams, extractKeys, splitAtBrace, dedupFirst]
  constructor
  · exact C3_failed_validation.1 ('{' :: 'a' :: '}' :: []) []
      [(('a' :: []), { type := PType.string, required := true })] ('b' :: [])
      (by unfold validateParamsRun; rw [hex]; decide)
      (by intro d hm hl; rw [hex] at hm; simp at hm)
  · exact C3_failed_validation.2 _ _ _ _
      { name := ('c' :: []), prompt := ('{' :: 'a' :: '}' :: []),
        params := [(('a' :: []), { type := PType.string, required := true })] }
      rfl
      (by unfold validateParamsRun; rw [hex]; decide)

/-- Claim C4 (amended): when the pipeline reaches the provider and the
provider succeeds, a history LOAD failure is swallowed (the response is
still returned as long as the save succeeds, whatever the load produced);
but a history SAVE failure propagates out of `run` — the error, not the
successful response, is returned, so a persistence fault at save time
does mask a successful response. -/
theorem C4_history_failures :
    (∀ (cfg : Config) (w : World) (commandName : Str) (o : RunOptions)
        (cmd : CommandDef) (values' : ValueMap) (p r : Str),
        findCommand cfg commandName = some cmd →
        validateParamsRun cmd.prompt (runValues o w.stdin) cmd.params = (values', none) →
        render cmd.prompt values' cmd.params = Except.ok p →
        o.dryRun = false →
        w.providerResult p = Except.ok r →
        w.histSave = Except.ok () →
        (run cfg w commandName o).result = Except.ok r) ∧
    (∀ (cfg : Config) (w : World) (commandName : Str) (o : RunOptions)
        (cmd : CommandDef) (values' : ValueMap) (p r : Str) (err : JsError),
        findCommand cfg commandName = some cmd →
        validateParamsRun cmd.prompt (runValues o w.stdin) cmd.params = (values', none) →
        render cmd.prompt values' cmd.params = Except.ok p →
        o.dryRun = false →
        w.providerResult p = Except.ok r →
        historyEnabled cfg = true →
        w.histSave = Except.error err →
        (run cfg w commandName o).result = Except.error err) := by
  constructor
  · intro cfg w commandName o cmd values' p r hf hv hr hdry hres hsave
    rw [run_exec cfg w commandName o cmd values' p hf hv hr hdry, hres]
    by_cases hh : historyEnabled cfg = true
    · simp only [hh, if_true]
      rw [hsave] at *
      obtain ⟨x, hx⟩ := histAdd_of_save_ok (cfg.history.getD ⟨false, 0⟩) w.histLoad
        { id := w.newId, timestamp := w.now, command := commandName,
          params := o.params, prompt := p, response := r, duration := w.duration }
      rw [hx]
      cases x <;> rfl
    · have hh' : historyEnabled cfg = false := by
        revert hh; cases historyEnabled cfg <;> simp
      simp only [hh', Bool.false_eq_true, if_false]
  · intro cfg w commandName o cmd values' p r err hf hv hr hdry hres hh hsave
    rw [run_exec cfg w commandName o cmd values' p hf hv hr hdry, hres]
    simp only [hh, if_true]
    have hen := historyEnabled_getD cfg hh
    have hadd : histAdd (cfg.history.getD ⟨false, 0⟩) w.histLoad w.histSave
        { id := w.newId, timestamp := w.now, command := commandName,
          params := o.params, prompt := p, response := r, duration := w.duration }
        = Except.error err := by
      unfold histAdd
      rw [hen, hsave]
      simp
    rw [hadd]

/-- Counterexample to Claim C4 as stated: the provider succeeds but the
history save fails; `run` re-throws the save failure instead of returning
the successful response (the effects show the provider was indeed called
and answered). -/
theorem C4_counterexample :
    (run { commands := [{ name := ('e' :: []), prompt := inputPlaceholder }],
           history := some { enabled := true, maxEntries := 5 } }
         { stdin := none, providerResult := fun _ => Except.ok ('R' :: []),
           histLoad := Except.ok [], histSave := Except.error (JsError.generic ('d' :: [])),
           newId := [], now := 0, duration := 0 }
         ('e' :: []) { dryRun := false, params := [], input := some ('h' :: 'i' :: []) }).result
      = Except.error (JsError.generic ('d' :: [])) ∧
    (run { commands := [{ name := ('e' :: []), prompt := inputPlaceholder }],
           history := some { enabled := true, maxEntries := 5 } }
         { stdin := none, providerResult := fun _ => Except.ok ('R' :: []),
           histLoad := Except.ok [], histSave := Except.error (JsError.generic ('d' :: [])),
           newId := [], now := 0, duration := 0 }
         ('e' :: []) { dryRun := false, params := [], input := some ('h' :: 'i' :: []) }).effects
      = { providerPrompts := [('h' :: 'i' :: [])], historyWrites := [] } := by
  have h3 : render inputPlaceholder [(inputKey, Value.str ('h' :: 'i' :: []))] []
      = Except.ok ('h' :: 'i' :: []) := by
    simp [render, substitute, splitAtBrace, resolveKey, alookup, definedNonNull,
      paramDefault, jsToString, truthy, truthyOpt, inputKey, inputPlaceholder, hasSubstr,
      List.isPrefixOf, trimStr, isWs, List.dropWhile, Except.map]
  have h2 : validateParamsRun inputPlaceholder [(inputKey, Value.str ('h' :: 'i' :: []))] []
      = ([(inputKey, Value.str ('h' :: 'i' :: []))], none) := by
    have hex : extractParams inputPlaceholder = [inputKey] := by
      simp [extractParams, extractKeys, splitAtBrace, dedupFirst, inputPlaceholder, inputKey]
    unfold validateParamsRun
    rw [hex]
    rfl
  rw [run_exec
      { commands := [{ name := ('e' :: []), prompt := inputPlaceholder }],
        history := some { enabled := true, maxEntries := 5 } }
      { stdin := none, providerResult := fun _ => Except.ok ('R' :: []),
        histLoad := Except.ok [], histSave := Except.error (JsError.generic ('d' :: [])),
        newId := [], now := 0, duration := 0 }
      ('e' :: []) { dryRun := false, params := [], input := some ('h' :: 'i' :: []) }
      { name := ('e' :: []), prompt := inputPlaceholder }
      [(inputKey, Value.str ('h' :: 'i' :: []))] ('h' :: 'i' :: []) rfl h2 h3 rfl]
  exact ⟨rfl, rfl⟩

/-- Witness for C4 (amended): with a failing history load but a
successful save, the provider response is still returned. -/
theorem C4_history_failures_witness :
    (run { commands := [{ name := ('e' :: []), prompt := inputPlaceholder }],
           history := some { enabled := true, maxEntries := 5 } }
         { stdin := none, providerResult := fun _ => Except.ok ('R' :: []),
           histLoad := Except.error (JsError.generic ('x' :: [])), histSave := Except.ok (),
           newId := [], now := 0, duration := 0 }
         ('e' :: []) { dryRun := false, params := [], input := some ('h' :: 'i' :: []) }).result
      = Except.ok ('R' :: []) := by
  have h3 : render inputPlaceholder [(inputKey, Value.str ('h' :: 'i' :: []))] []
      = Except.ok ('h' :: 'i' :: []) := by
    simp [render, substitute, splitAtBrace, resolveKey, alookup, definedNonNull,
      paramDefault, jsToString, truthy, truthyOpt, inputKey, inputPlaceholder, hasSubstr,
      List.isPrefixOf, trimStr, isWs, List.dropWhile, Except.map]
  have h2 : validateParamsRun inputPlaceholder [(inputKey, Value.str ('h' :: 'i' :: []))] []
      = ([(inputKey, Value.str ('h' :: 'i' :: []))], none) := by
    have hex : extractParams inputPlaceholder = [inputKey] := by
      simp [extractParams, extractKeys, splitAtBrace, dedupFirst, inputPlaceholder, inputKey]
    unfold validateParamsRun
    rw [hex]
    rfl
  exact C4_history_failures.1
    { commands := [{ name := ('e' :: []), prompt := inputPlaceholder }],
      history := some { enabled := true, maxEntries := 5 } }
    { stdin := none, providerResult := fun _ => Except.ok ('R' :: []),
      histLoad := Except.error (JsError.generic ('x' :: [])), histSave := Except.ok (),
      newId := [], now := 0, duration := 0 }
    ('e' :: []) { dryRun := false, params := [], input := some ('h' :: 'i' :: []) }
    { name := ('e' :: []), prompt := inputPlaceholder }
    [(inputKey, Value.str ('h' :: 'i' :: []))] ('h' :: 'i' :: []) ('R' :: [])
    rfl h2 h3 rfl rfl rfl

/-- Claim C5: for a `number`-typed parameter with a defined effective
value (supplied value else default): a value that does not parse as a
number makes validation fail with the type-mismatch error reporting the
offending literal; a value that parses has the value-map entry updated
with the coerced number.  For a template whose only extracted parameter
is that key, `validateParams` behaves exactly as this per-parameter
step. -/
theorem C5_number_coercion (values : ValueMap) (k : Str) (d : ParamDef) (v : Value)
    (htype : d.type = PType.number)
    (heff : effValue values k d = some v) :
    (jsToNumber v = none →
        validateOne values k d =
          (values, some ⟨numMismatchMsg k, some (numMismatchHint v)⟩)) ∧
    (∀ n, jsToNumber v = some n →
        (validateOne values k d).1 = insertVal values k (Value.num n) ∧
        alookup (validateOne values k d).1 k = some (Value.num n)) ∧
    (∀ t, extractParams t = [k] → k ≠ inputKey →
        validateParamsRun t values [(k, d)] = validateOne values k d) := by
  refine ⟨?_, ?_, ?_⟩
  · intro hn
    unfold validateOne
    rw [heff, htype]
    simp only [eq_self_iff_true, if_true]
    rw [hn]
  · intro n hn
    unfold validateOne
    rw [heff, htype]
    simp only [eq_self_iff_true, if_true]
    rw [hn]
    exact ⟨checkChoices_fst _ _ _ _,
      by rw [checkChoices_fst]; exact alookup_insert_self _ _ _⟩
  · intro t hex hki
    unfold validateParamsRun
    rw [hex]
    cases hvo : validateOne values k d with
    | mk values' err =>
      unfold validateSteps
      simp only [hki, if_false]
      have hlk : alookup [(k, d)] k = some d := by simp [alookup]
      rw [hlk]
      cases err with
      | some e => simp only [hvo]
      | none => simp only [hvo, validateSteps]

/-- Witness for C5: the string 42 coerces to the number 42 (and the
whole single-parameter validation run agrees), while the non-numeric
literal raises the type-mismatch error. -/
theorem C5_number_coercion_witness :
    alookup (validateOne [(('x' :: []), Value.str ('4' :: '2' :: []))] ('x' :: [])
        { type := PType.number }).1 ('x' :: []) = some (Value.num 42) ∧
    validateOne [(('x' :: []), Value.str ('a' :: []))] ('x' :: [])
        { type := PType.number }
      = ([(('x' :: []), Value.str ('a' :: []))],
         some ⟨numMismatchMsg ('x' :: []), some (numMismatchHint (Value.str ('a' :: [])))⟩) ∧
    validateParamsRun ('{' :: 'x' :: '}' :: []) [(('x' :: []), Value.str ('4' :: '2' :: []))]
        [(('x' :: []), { type := PType.number })]
      = validateOne [(('x' :: []), Value.str ('4' :: '2' :: []))] ('x' :: [])
          { type := PType.number } := by
  refine ⟨?_, ?_, ?_⟩
  · exact ((C5_number_coercion [(('x' :: []), Value.str ('4' :: '2' :: []))] ('x' :: [])
      { type := PType.number } (Value.str ('4' :: '2' :: [])) rfl (by decide)).2.1
      42 (by decide)).2
  · exact (C5_number_coercion [(('x' :: []), Value.str ('a' :: []))] ('x' :: [])
      { type := PType.number } (Value.str ('a' :: [])) rfl (by decide)).1 (by decide)
  · exact (C5_number_coercion [(('x' :: []), Value.str ('4' :: '2' :: []))] ('x' :: [])
      { type := PType.number } (Value.str ('4' :: '2' :: [])) rfl (by decide)).2.2
      ('{' :: 'x' :: '}' :: [])
      (by simp [extractParams, extractKeys, splitAtBrace, dedupFirst]) (by decide)

/-- Claim C6: appending to a history log (most-recent-first) prepends the
new entry and retains exactly the min(previous length + 1, maxEntries)
most recent entries, dropping the tail; the stored log never exceeds
maxEntries. -/
theorem C6_history_ceiling (cfg : HistoryConfig) (prev : List HistoryEntry)
    (e : HistoryEntry) (hen : cfg.enabled = true) :
    histAdd cfg (Except.ok prev) (Except.ok ()) e =
      Except.ok (some ((e :: prev).take (min (prev.length + 1) cfg.maxEntries))) ∧
    ((e :: prev).take (min (prev.length + 1) cfg.maxEntries)).length ≤ cfg.maxEntries := by
  constructor
  · unfold histAdd
    rw [hen]
    simp only [Bool.not_true, Bool.false_eq_true, if_false]
    by_cases hgt : (e :: prev).length > cfg.maxEntries
    · have hmin : min (prev.length + 1) cfg.maxEntries = cfg.maxEntries := by
        simp at hgt; omega
      rw [if_pos hgt, hmin]
    · have hmin : min (prev.length + 1) cfg.maxEntries = prev.length + 1 := by
        simp at hgt; omega
      rw [if_neg hgt, hmin]
      have : (e :: prev).length = prev.length + 1 := by simp
      rw [← this, List.take_length]
  · rw [List.length_take]
    simp only [List.length_cons]
    omega

/-- Witness for C6: a log of two entries with ceiling two — appending a
third keeps the new entry and the most recent old one. -/
theorem C6_history_ceiling_witness :
    histAdd { enabled := true, maxEntries := 2 }
      (Except.ok
        [{ id := [], timestamp := 1, command := [], params := [], prompt := [],
           response := [], duration := 0 },
         { id := [], timestamp := 2, command := [], params := [], prompt := [],
           response := [], duration := 0 }])
      (Except.ok ())
      { id := [], timestamp := 3, command := [], params := [], prompt := [],
        response := [], duration := 0 }
      = Except.ok (some
          [{ id := [], timestamp := 3, command := [], params := [], prompt := [],
             response := [], duration := 0 },
           { id := [], timestamp := 1, command := [], params := [], prompt := [],
             response := [], duration := 0 }]) := by
  rw [(C6_history_ceiling { enabled := true, maxEntries := 2 } _ _ rfl).1]
  rfl

/-- Claim C7: `ProviderDiscovery.get` on a registered identifier builds
the constructor configuration as defaultConfig overridden by the partial
configuration overridden by the forced name = identifier (later sources
win pointwise on key conflict); on an unregistered identifier it fails
with the not-found message, which contains every registered
identifier. -/
theorem C7_provider_get (reg : Registry) (meta : MetadataMap) (id : Str)
    (config : ValueMap) :
    (∀ cls, alookup reg (toLowerStr id) = some cls →
        ProviderDiscovery.get reg meta id config =
          Except.ok (cls, (nameKey, Value.str id) :: (config ++ defaultCfgOf meta cls)) ∧
        alookup ((nameKey, Value.str id) :: (config ++ defaultCfgOf meta cls)) nameKey
          = some (Value.str id) ∧
        (∀ j, j ≠ nameKey → ∀ v, alookup config j = some v →
          alookup ((nameKey, Value.str id) :: (config ++ defaultCfgOf meta cls)) j
            = some v) ∧
        (∀ j, j ≠ nameKey → alookup config j = none →
          alookup ((nameKey, Value.str id) :: (config ++ defaultCfgOf meta cls)) j
            = alookup (defaultCfgOf meta cls) j)) ∧
    (alookup reg (toLowerStr id) = none →
        ProviderDiscovery.get reg meta id config =
          Except.error (ProviderDiscovery.providerNotFoundMsg id (ProviderDiscovery.list reg)) ∧
        ∀ k, k ∈ ProviderDiscovery.list reg →
          hasSubstr (ProviderDiscovery.providerNotFoundMsg id (ProviderDiscovery.list reg)) k
            = true) := by
  constructor
  · intro cls hcls
    refine ⟨?_, ?_, ?_, ?_⟩
    · unfold ProviderDiscovery.get
      rw [hcls]
    · simp [alookup]
    · intro j hj v hv
      have hne : ¬(nameKey = j) := fun hh => hj hh.symm
      simp only [alookup, hne, if_false]
      rw [alookup_append, hv]
    · intro j hj hv
      have hne : ¬(nameKey = j) := fun hh => hj hh.symm
      simp only [alookup, hne, if_false]
      rw [alookup_append, hv]
  · intro hnone
    constructor
    · unfold ProviderDiscovery.get
      rw [hnone]
    · intro k hk
      unfold ProviderDiscovery.providerNotFoundMsg
      obtain ⟨a, b, hab⟩ := joinSep_mem_split ((", ").data) (ProviderDiscovery.list reg) k hk
      by_cases hjoin : joinSep ((", ").data) (ProviderDiscovery.list reg) = []
      · have hknil : k = [] := by
          cases k with
          | nil => rfl
          | cons c r =>
            rw [hjoin] at hab
            have hlen := congrArg List.length hab
            simp [List.length_append] at hlen
            omega
        rw [hknil]
        exact hasSubstr_nil _
      · rw [if_neg hjoin, hab]
        exact hasSubstr_append_left _ _ _
          (hasSubstr_append_left _ _ _ (hasSubstr_self_append k b))

/-- Witness for C7: a one-provider registry — `get` merges default
config, partial config and the forced name; an unknown identifier fails
with a message containing the registered identifier. -/
theorem C7_provider_get_witness :
    ProviderDiscovery.get [(('g' :: []), ('C' :: []))]
        [(('C' :: []), { providerName := ('g' :: []), displayName := ('G' :: []),
                         defaultConfig := [(('m' :: []), Value.num 1), (('t' :: []), Value.num 7)] })]
        ('G' :: []) [(('m' :: []), Value.num 2)]
      = Except.ok (('C' :: []),
          [(nameKey, Value.str ('G' :: [])),
           (('m' :: []), Value.num 2),
           (('m' :: []), Value.num 1), (('t' :: []), Value.num 7)]) ∧
    hasSubstr (ProviderDiscovery.providerNotFoundMsg ('z' :: [])
        (ProviderDiscovery.list [(('g' :: []), ('C' :: []))])) ('g' :: []) = true := by
  constructor
  · exact ((C7_provider_get [(('g' :: []), ('C' :: []))]
        [(('C' :: []), { providerName := ('g' :: []), displayName := ('G' :: []),
                         defaultConfig := [(('m' :: []), Value.num 1), (('t' :: []), Value.num 7)] })]
        ('G' :: []) [(('m' :: []), Value.num 2)]).1 ('C' :: []) (by decide)).1
  · exact ((C7_provider_get [(('g' :: []), ('C' :: []))] [] ('z' :: []) []).2 (by decide)).2
      ('g' :: []) (by decide)

/-- Claim C8 (amended): the registry stores and looks identifiers up
case-insensitively (after registering a name, `has` succeeds for any
casing of it, and re-registration overwrites the stored class); but the
collision warning is logged exactly when the identifier as supplied
(without lowercasing) is already a stored key, so re-registering a known
identifier under a different casing overwrites silently. -/
theorem C8_register_casing (reg : Registry) (name : Str) (cls : ProviderClass) (id : Str) :
    ((ProviderDiscovery.register reg name cls).2 = containsKey reg name) ∧
    (toLowerStr id = toLowerStr name →
        ProviderDiscovery.has (ProviderDiscovery.register reg name cls).1 id = true) ∧
    (alookup (ProviderDiscovery.register reg name cls).1 (toLowerStr name) = some cls) := by
  refine ⟨rfl, ?_, ?_⟩
  · intro hcase
    unfold ProviderDiscovery.has ProviderDiscovery.register containsKey
    rw [hcase]
    rw [alookup_setKey_self]
    rfl
  · exact alookup_setKey_self reg (toLowerStr name) cls

/-- Counterexample to Claim C8 as stated: gemini is registered;
re-registering it as GEMINI (the same identifier case-insensitively)
overwrites the stored class but logs no warning, because the collision
check uses the identifier as supplied while keys are stored lowercased. -/
theorem C8_counterexample :
    ProviderDiscovery.has
        (ProviderDiscovery.register []
          ('g' :: 'e' :: 'm' :: 'i' :: 'n' :: 'i' :: []) ('A' :: [])).1
        ('G' :: 'E' :: 'M' :: 'I' :: 'N' :: 'I' :: []) = true ∧
    (ProviderDiscovery.register
        (ProviderDiscovery.register []
          ('g' :: 'e' :: 'm' :: 'i' :: 'n' :: 'i' :: []) ('A' :: [])).1
        ('G' :: 'E' :: 'M' :: 'I' :: 'N' :: 'I' :: []) ('B' :: [])).2 = false ∧
    alookup (ProviderDiscovery.register
        (ProviderDiscovery.register []
          ('g' :: 'e' :: 'm' :: 'i' :: 'n' :: 'i' :: []) ('A' :: [])).1
        ('G' :: 'E' :: 'M' :: 'I' :: 'N' :: 'I' :: []) ('B' :: [])).1
        ('g' :: 'e' :: 'm' :: 'i' :: 'n' :: 'i' :: []) = some ('B' :: []) := by
  decide

/-- Witness for C8 (amended): after registering under a mixed casing,
lookup under another casing succeeds. -/
theorem C8_register_casing_witness :
    ProviderDiscovery.has
      (ProviderDiscovery.register [] ('G' :: 'e' :: 'm' :: []) ('A' :: [])).1
      ('g' :: 'E' :: 'M' :: []) = true :=
  (C8_register_casing [] ('G' :: 'e' :: 'm' :: []) ('A' :: []) ('g' :: 'E' :: 'M' :: [])).2.1
    (by decide)

/-- Claim C9 (amended): a non-2xx response with no structured error body
yields the fixed per-status default: 429 → rate-limit message and hint,
401 → invalid API key, 404 → model not found; the service-error message
applies exactly to the statuses 500, 502 and 503, while any other status
outside the table yields the generic HTTP-status message with an empty
hint. -/
theorem C9_error_table (model : Str) :
    handleErrorResponse 429 model none =
      ⟨("Rate limit exceeded").data, some (("Wait a moment and try again").data)⟩ ∧
    handleErrorResponse 401 model none =
      ⟨("Invalid API key").data,
       some (("Check your GEMINI_API_KEY environment variable").data)⟩ ∧
    handleErrorResponse 404 model none =
      ⟨("Model not found").data,
       some ((("Model \x27").data ++ model ++
         ("\x27 may not exist. Try \x27gemini-2.0-flash\x27").data))⟩ ∧
    (∀ s, s = 500 ∨ s = 502 ∨ s = 503 →
      handleErrorResponse s model none =
        ⟨("Gemini service error").data,
         some (("The service may be temporarily down. Try again later").data)⟩) ∧
    (∀ s, s ∉ ([400, 401, 403, 404, 429, 500, 502, 503] : List Nat) →
      handleErrorResponse s model none =
        ⟨("HTTP ").data ++ Nat.toDigits 10 s ++ (" error").data, some []⟩) := by
  refine ⟨rfl, rfl, rfl, ?_, ?_⟩
  · rintro s (rfl | rfl | rfl) <;> rfl
  · intro s hs
    have hsd : statusDefaults s model =
        ((("HTTP ").data ++ Nat.toDigits 10 s ++ (" error").data), []) := by
      unfold statusDefaults
      split
      · exact absurd (by simp) hs
      · exact absurd (by simp) hs
      · exact absurd (by simp) hs
      · exact absurd (by simp) hs
      · exact absurd (by simp) hs
      · exact absurd (by simp) hs
      · exact absurd (by simp) hs
      · exact absurd (by simp) hs
      · rfl
    unfold handleErrorResponse
    rw [hsd]

/-- Witness for C9 (amended): the untabulated statuses 418 and the
tabulated 502 evaluate to their respective messages. -/
theorem C9_error_table_witness :
    handleErrorResponse 418 (('m') :: []) none
      = ⟨("HTTP ").data ++ Nat.toDigits 10 418 ++ (" error").data, some []⟩ ∧
    handleErrorResponse 502 (('m') :: []) none
      = ⟨("Gemini service error").data,
         some (("The service may be temporarily down. Try again later").data)⟩ := by
  constructor
  · exact (C9_error_table (('m') :: [])).2.2.2.2 418 (by decide)
  · exact (C9_error_table (('m') :: [])).2.2.2.1 502 (Or.inr (Or.inl rfl))

/-- Counterexample to Claim C9 as stated (every 5xx yields the service
error): status 501 with no structured body yields the generic HTTP 501
message with empty hint, not the service-error message. -/
theorem C9_counterexample :
    handleErrorResponse 501 (('m') :: []) none
      = ⟨("HTTP 501 error").data, some []⟩ ∧
    (handleErrorResponse 501 (('m') :: []) none).message ≠ ("Gemini service error").data := by
  constructor
  · rfl
  · decide

/-- Claim C10: `render` raises the no-input error only when the input
value is undefined (absent from the map) or null; a supplied empty-string
input takes the explicit-value branch, so the input placeholder is
substituted with empty text and the no-input error is never raised. -/
theorem C10_empty_input (t : Str) (values : ValueMap) (params : ParamMap) :
    (∀ e, render t values params = Except.error e → e.message = noInputMsg →
        alookup values inputKey = none ∨ alookup values inputKey = some Value.null) ∧
    (alookup values inputKey = some (Value.str []) →
        resolveKey values params inputKey = Except.ok []) ∧
    (alookup values inputKey = some (Value.str []) →
        ∀ e, render t values params = Except.error e → e.message ≠ noInputMsg) := by
  have hmain : ∀ e, render t values params = Except.error e → e.message = noInputMsg →
      alookup values inputKey = none ∨ alookup values inputKey = some Value.null := by
    intro e hre hm
    obtain ⟨k, hk⟩ := substitute_error _ t e (render_error t values params e hre)
    exact resolveKey_noInput values params k e hk hm
  refine ⟨hmain, ?_, ?_⟩
  · intro hl
    unfold resolveKey
    rw [hl]
    rfl
  · intro hl e hre hm
    rcases hmain e hre hm with h | h <;> rw [hl] at h <;> simp at h

/-- Witness for C10: with an explicit empty-string input, the input
placeholder resolves to empty text and rendering a template that is just
the placeholder succeeds with the empty output. -/
theorem C10_empty_input_witness :
    resolveKey [(inputKey, Value.str [])] [] inputKey = Except.ok [] ∧
    render inputPlaceholder [(inputKey, Value.str [])] [] = Except.ok [] := by
  constructor
  · exact (C10_empty_input [] [(inputKey, Value.str [])] []).2.1 rfl
  · have h := (C10_empty_input inputPlaceholder [(inputKey, Value.str [])] []).2.1 rfl
    simp [render, substitute, splitAtBrace, resolveKey, alookup, definedNonNull,
      paramDefault, jsToString, truthy, truthyOpt, inputKey, inputPlaceholder, hasSubstr,
      List.isPrefixOf, trimStr, isWs, List.dropWhile, Except.map]

end Aiq
